import Mathlib

/-!
Shallow embedding of the LightDNS server (`dnsserver.go` plus its name-table
helper file) and verification of the frozen claims about it.

Modelling conventions:
- Go strings and byte slices are `List Nat`; each element stands for one byte.
  Conversions that truncate to a machine width are made explicit with `% 256`
  (for `byte(...)`) and `% 65536` (for `uint16(...)`).
- `bytes.Buffer` reads are explicit state passing: a function consumes a
  prefix of the list and returns the remainder.
- A Go run-time panic (out-of-range index or slice) is modelled as `none` of
  an `Option` result; a completed computation is `some`.
- The `GetNames()` collaborator is a parameter `names? : Option (List Name)`:
  `none` is a failed name-table read, `some table` a successful snapshot.
-/

namespace LightDNS

/-- Go struct `DNSHeader` (dnsserver.go): six 16-bit fields. -/
structure DNSHeader where
  transactionID : Nat
  flags : Nat
  numQuestions : Nat
  numAnswers : Nat
  numAuthorities : Nat
  numAdditionals : Nat
  deriving DecidableEq

/-- Go struct `DNSResourceRecord` (dnsserver.go). The Go field `Class` is
named `rrClass` here because `class` is reserved in Lean. -/
structure DNSResourceRecord where
  domainName : List Nat
  type : Nat
  rrClass : Nat
  timeToLive : Nat
  resourceDataLength : Nat
  resourceData : List Nat
  deriving DecidableEq

/-- Go struct `Name` (name-table file): a table entry; `Address` is a
`net.IP`, i.e. a byte slice (16 bytes for a successfully parsed address,
empty for the `nil` result of parsing an invalid one). -/
structure Name where
  name : List Nat
  address : List Nat
  deriving DecidableEq

/-- Go constant `TypeA = 1`. -/
def TypeA : Nat := 1

/-- Go constant `ClassINET = 1`. -/
def ClassINET : Nat := 1

/-- Go constant `FlagResponse = 1 << 15`. -/
def FlagResponse : Nat := 32768

/-- Go `strings.HasPrefix s p` on byte strings. -/
def hasPrefixB : List Nat → List Nat → Bool
  | _, [] => true
  | [], _ :: _ => false
  | a :: s, b :: p => a == b && hasPrefixB s p

/-- Go `strings.Contains s sub`: `sub` occurs as a contiguous substring of
`s` (the empty string is contained in everything). -/
def containsSub : List Nat → List Nat → Bool
  | [], p => p.isEmpty
  | a :: s, p => hasPrefixB (a :: s) p || containsSub s p

/-- Go slice expression `address[12:16]` in `dbLookup`: panics (`none`) when
the address holds fewer than 16 bytes. -/
def sliceAddr (a : List Nat) : Option (List Nat) :=
  if 16 ≤ a.length then some ((a.drop 12).take 4) else none

/-- The answer record `dbLookup` appends for a matching table entry `e`:
the entry's own name, type A, class INET, TTL 31337, and the 4 resource-data
bytes `rd` taken from the entry's address. -/
def mkAnswer (e : Name) (rd : List Nat) : DNSResourceRecord :=
  { domainName := e.name, type := TypeA, rrClass := ClassINET,
    timeToLive := 31337, resourceDataLength := 4, resourceData := rd }

/-- The `for _, name := range names` loop of `dbLookup`: collect one answer
record per entry whose name is contained in the queried name; `none` models
the panic of `address[12:16]` on a short address. -/
def lookupAnswers (qname : List Nat) : List Name → Option (List DNSResourceRecord)
  | [] => some []
  | e :: rest =>
    if containsSub qname e.name then
      match sliceAddr e.address with
      | none => none
      | some rd =>
        match lookupAnswers qname rest with
        | none => none
        | some tl => some (mkAnswer e rd :: tl)
    else lookupAnswers qname rest

/-- Go `dbLookup` (dnsserver.go lines 37–66). The `GetNames()` call is the
parameter `names?`; its error branch is checked before the type/class test,
exactly as in the source. Returns the `(answer, authority, additional)`
triple, or `none` for a panic inside the loop. -/
def dbLookup (names? : Option (List Name)) (q : DNSResourceRecord) :
    Option (List DNSResourceRecord × List DNSResourceRecord × List DNSResourceRecord) :=
  match names? with
  | none => some ([], [], [])
  | some names =>
    if q.type ≠ TypeA ∨ q.rrClass ≠ ClassINET then some ([], [], [])
    else
      match lookupAnswers q.domainName names with
      | none => none
      | some ans => some (ans, [], [])

/-- The accumulation step of `readDomainName`'s loop body: Go appends the
label directly when the accumulated name is still empty and prepends a dot
otherwise (`if len(domainName) == 0`). Byte 46 is the ASCII dot. -/
def goAppend (acc lab : List Nat) : List Nat :=
  if acc.isEmpty then lab else acc ++ 46 :: lab

/-- The loop of Go `readDomainName` (dnsserver.go lines 68–86) with the
accumulated name threaded explicitly. An empty buffer is `ReadByte`
returning `io.EOF` (error flag `true`); a zero byte terminates with no
error; otherwise `Next(labelLength)` takes at most `labelLength` bytes and
the loop continues. The `fuel` argument only bounds the recursion so it is
structural: every iteration consumes at least one byte, so any fuel of at
least the buffer length never reaches the exhausted arm (the behaviour is
fuel-independent above that bound, `readDomainNameAux_readLabels`). -/
def readDomainNameAux : Nat → List Nat → List Nat → List Nat × Bool × List Nat
  | _, acc, [] => (acc, true, [])
  | 0, acc, _ :: _ => (acc, true, [])
  | fuel + 1, acc, b :: rest =>
    if b = 0 then (acc, false, rest)
    else readDomainNameAux fuel (goAppend acc (rest.take b)) (rest.drop b)

/-- Go `readDomainName`: returns the decoded name, the error flag, and the
unconsumed remainder of the buffer. -/
def readDomainName (buf : List Nat) : List Nat × Bool × List Nat :=
  readDomainNameAux buf.length [] buf

/-- The label sequence `readDomainName` traverses: one list entry per loop
iteration, in order. Followed by `goAppend`-folding it reproduces
`readDomainName` (proved below). -/
def readLabels : List Nat → List (List Nat) × Bool × List Nat
  | [] => ([], true, [])
  | b :: rest =>
    if b = 0 then ([], false, rest)
    else
      match readLabels (rest.drop b) with
      | (ls, e, rem) => (rest.take b :: ls, e, rem)
termination_by buf => buf.length
decreasing_by simp; omega

/-- Go `strings.Split(s, ".")` on byte strings: dot-separated pieces, empty
pieces preserved, and the empty string splits into one empty piece. -/
def splitOnDot : List Nat → List (List Nat)
  | [] => [[]]
  | c :: rest =>
    if c = 46 then [] :: splitOnDot rest
    else
      match splitOnDot rest with
      | [] => [[c]]
      | h :: t => (c :: h) :: t

/-- Go `writeDomainName` (dnsserver.go lines 88–102): split on dots, write
each label as `byte(len(label))` followed by the label bytes, then a single
terminating zero byte. `bytes.Buffer` writes never fail, so no error value
is modelled. -/
def writeDomainName (domainName : List Nat) : List Nat :=
  ((splitOnDot domainName).map (fun label => (label.length % 256) :: label)).flatten ++ [0]

/-- Big-endian 16-bit value of two bytes (`binary.BigEndian.Uint16`). -/
def u16 (hi lo : Nat) : Nat := hi * 256 + lo

/-- `binary.BigEndian.Uint16(requestBuffer.Next(2))` in `handleDNSClient`:
`Next(2)` yields whatever remains (at most 2 bytes) and `Uint16` indexes
byte 1 of it, panicking (`none`) when fewer than 2 bytes remain. -/
def next2u16 (buf : List Nat) : Option (Nat × List Nat) :=
  match buf with
  | b0 :: b1 :: rest => some (u16 b0 b1, rest)
  | _ => none

/-- `binary.Read(requestBuffer, binary.BigEndian, &queryHeader)`: twelve
bytes decode into the six header fields; on a short buffer the error flag is
set, the header stays zero-valued and the partial read drains the buffer. -/
def decodeHeader (buf : List Nat) : DNSHeader × Bool × List Nat :=
  match buf with
  | b0 :: b1 :: b2 :: b3 :: b4 :: b5 :: b6 :: b7 :: b8 :: b9 :: b10 :: b11 :: rest =>
    (⟨u16 b0 b1, u16 b2 b3, u16 b4 b5, u16 b6 b7, u16 b8 b9, u16 b10 b11⟩, false, rest)
  | _ => (⟨0, 0, 0, 0, 0, 0⟩, true, [])

/-- The question-decoding loop of `handleDNSClient` (lines 115–126): for
each of the `NumQuestions` slots, read a name (its error is only logged),
then two `Uint16(Next(2))` reads that panic on a drained buffer. Returns
the questions, whether any name error occurred, and the remaining buffer. -/
def readQuestions : Nat → List Nat → Option (List DNSResourceRecord × Bool × List Nat)
  | 0, buf => some ([], false, buf)
  | n + 1, buf =>
    match next2u16 (readDomainName buf).2.2 with
    | none => none
    | some (t, buf2) =>
      match next2u16 buf2 with
      | none => none
      | some (c, buf3) =>
        match readQuestions n buf3 with
        | none => none
        | some (qs, e, rest) =>
          some (⟨(readDomainName buf).1, t, c, 0, 0, []⟩ :: qs, (readDomainName buf).2.1 || e, rest)

/-- The resolution loop of `handleDNSClient` (lines 132–138): `dbLookup`
per question, concatenating the three record lists in question order. -/
def resolveAll (names? : Option (List Name)) :
    List DNSResourceRecord →
    Option (List DNSResourceRecord × List DNSResourceRecord × List DNSResourceRecord)
  | [] => some ([], [], [])
  | q :: qs =>
    match dbLookup names? q with
    | none => none
    | some (a, u, d) =>
      match resolveAll names? qs with
      | none => none
      | some (as', us, ds) => some (a ++ as', u ++ us, d ++ ds)

/-- A built response before serialization: the header of lines 143–150 and
the four record lists the encoding loops then serialize. -/
structure DNSResponse where
  header : DNSHeader
  questions : List DNSResourceRecord
  answers : List DNSResourceRecord
  authorities : List DNSResourceRecord
  additionals : List DNSResourceRecord
  deriving DecidableEq

/-- Decode-and-resolve phase of `handleDNSClient` up to the response struct
of lines 143–150: header decode (error only logged), question loop,
resolution, then the response header with the request's transaction ID and
question count, the response flag, and `uint16(len(...))` section counts. -/
def buildResponse (names? : Option (List Name)) (buf : List Nat) : Option DNSResponse :=
  match readQuestions (decodeHeader buf).1.numQuestions (decodeHeader buf).2.2 with
  | none => none
  | some (qs, _e, _rest) =>
    match resolveAll names? qs with
    | none => none
    | some (ans, auth, add) =>
      some { header := { transactionID := (decodeHeader buf).1.transactionID,
                         flags := FlagResponse,
                         numQuestions := (decodeHeader buf).1.numQuestions,
                         numAnswers := ans.length % 65536,
                         numAuthorities := auth.length % 65536,
                         numAdditionals := add.length % 65536 },
             questions := qs, answers := ans, authorities := auth, additionals := add }

/-- Big-endian bytes of a 16-bit value (`binary.Write` of a `uint16`). -/
def encodeU16 (v : Nat) : List Nat := [v / 256 % 256, v % 256]

/-- Big-endian bytes of a 32-bit value (`binary.Write` of a `uint32`). -/
def encodeU32 (v : Nat) : List Nat :=
  [v / 16777216 % 256, v / 65536 % 256, v / 256 % 256, v % 256]

/-- `Write(responseBuffer, &responseHeader)`: the six fields in order. -/
def encodeHeader (h : DNSHeader) : List Nat :=
  encodeU16 h.transactionID ++ encodeU16 h.flags ++ encodeU16 h.numQuestions ++
  encodeU16 h.numAnswers ++ encodeU16 h.numAuthorities ++ encodeU16 h.numAdditionals

/-- One iteration of the question-encoding loop (lines 158–167): name, type,
class. -/
def encodeQuestion (r : DNSResourceRecord) : List Nat :=
  writeDomainName r.domainName ++ encodeU16 r.type ++ encodeU16 r.rrClass

/-- The serialized question section: the loop over all question records. -/
def encodeQuestions (qs : List DNSResourceRecord) : List Nat :=
  (qs.map encodeQuestion).flatten

/-- One iteration of the answer/authority/additional encoding loops
(lines 169–209): name, type, class, TTL, resource-data length, raw data. -/
def encodeRR (r : DNSResourceRecord) : List Nat :=
  writeDomainName r.domainName ++ encodeU16 r.type ++ encodeU16 r.rrClass ++
  encodeU32 r.timeToLive ++ encodeU16 r.resourceDataLength ++ r.resourceData

/-- The full serialized response buffer, in the order the encoding loops of
`handleDNSClient` write it. -/
def encodeResponse (r : DNSResponse) : List Nat :=
  encodeHeader r.header ++ encodeQuestions r.questions ++
  (r.answers.map encodeRR).flatten ++ (r.authorities.map encodeRR).flatten ++
  (r.additionals.map encodeRR).flatten

/-- Go `handleDNSClient` (dnsserver.go lines 104–212) for one datagram:
`some bytes` is the buffer handed to `WriteToUDP`, `none` an unrecovered
panic on the way there. -/
def handleDNSClient (names? : Option (List Name)) (requestBytes : List Nat) :
    Option (List Nat) :=
  (buildResponse names? requestBytes).map encodeResponse

/-- A question record as the decode loop produces it: only name, type and
class populated, the remaining fields zero-valued. -/
def mkQuestion (dn : List Nat) (t c : Nat) : DNSResourceRecord :=
  { domainName := dn, type := t, rrClass := c,
    timeToLive := 0, resourceDataLength := 0, resourceData := [] }

/-- Dot-joined label list (the inverse direction of `splitOnDot`): labels
joined by byte 46 with no leading or trailing dot. -/
def join46 : List (List Nat) → List Nat
  | [] => []
  | [l] => l
  | l :: l' :: ls => l ++ 46 :: join46 (l' :: ls)

/-- The label-block bytes `writeDomainName` emits before its terminator:
each label length-prefixed by `byte(len(label))`. -/
def encLabels (ls : List (List Nat)) : List Nat :=
  (ls.map (fun label => (label.length % 256) :: label)).flatten

/-- A 12-byte request header claiming one question, followed by one
question: empty name (single zero byte), type A, class INET. -/
def oneQuestionBuf : List Nat :=
  [0, 0, 0, 0, 0, 1, 0, 0, 0, 0, 0, 0] ++ [0, 0, 1, 0, 1]

/-- A table entry whose empty name matches every query and whose address is
a full 16-byte representation. -/
def overflowEntry : Name :=
  { name := [], address := List.replicate 16 0 }

/-- A name-table snapshot with 65536 entries that all match any query. -/
def overflowTable : List Name := List.replicate 65536 overflowEntry

/-- The answer record `dbLookup` emits for `overflowEntry`. -/
def overflowAnswer : DNSResourceRecord := mkAnswer overflowEntry [0, 0, 0, 0]

/-- The response built for `oneQuestionBuf` over `overflowTable`: 65536
serialized answer records, but an answer-count field of `uint16(65536) = 0`. -/
def overflowResp : DNSResponse :=
  { header := { transactionID := 0, flags := FlagResponse, numQuestions := 1,
                numAnswers := 0, numAuthorities := 0, numAdditionals := 0 },
    questions := [mkQuestion [] 1 1],
    answers := List.replicate 65536 overflowAnswer,
    authorities := [], additionals := [] }

/-- Request header bytes for the C6 counterexample: transaction ID 0,
flags 0, one question, remaining counts 0. -/
def c6HeaderBytes : List Nat := [0, 0, 0, 0, 0, 1, 0, 0, 0, 0, 0, 0]

/-- Question-section bytes for the C6 counterexample: one question whose
wire name is the single label `"."` (length 1, byte 46, terminator), then
type A and class INET. -/
def c6QuestionBytes : List Nat := [1, 46, 0, 0, 1, 0, 1]

/-- A table entry with name `"a"` and a full 16-byte address, used as a
concrete evaluation point. -/
def wEntry : Name :=
  { name := [97], address := [0, 1, 2, 3, 4, 5, 6, 7, 8, 9, 10, 11, 12, 13, 14, 15] }

/-- The response `buildResponse` produces for `oneQuestionBuf` with a
failed name-table read (used as a concrete evaluation point). -/
def oneQuestionResp : DNSResponse :=
  { header := { transactionID := 0, flags := FlagResponse, numQuestions := 1,
                numAnswers := 0, numAuthorities := 0, numAdditionals := 0 },
    questions := [mkQuestion [] 1 1], answers := [], authorities := [], additionals := [] }

/-- The response built for a one-question request for the name `"a"` with
transaction ID 7, when the table read fails. -/
def c6WitnessResp : DNSResponse :=
  { header := { transactionID := 7, flags := FlagResponse, numQuestions := 1,
                numAnswers := 0, numAuthorities := 0, numAdditionals := 0 },
    questions := [mkQuestion [97] 1 1], answers := [], authorities := [], additionals := [] }

/-! ### Helper lemmas -/

/-- The explicit-accumulator loop, run with any sufficient fuel, equals
traversing the label sequence and folding `goAppend` over it:
`readDomainName` is the `goAppend`-fold of `readLabels`, with the same
error flag and remainder. In particular the fuel bound `buf.length` used by
`readDomainName` is never exhausted. -/
theorem readDomainNameAux_readLabels (buf : List Nat) : ∀ fuel, buf.length ≤ fuel → ∀ acc,
    readDomainNameAux fuel acc buf =
      ((readLabels buf).1.foldl goAppend acc, (readLabels buf).2.1, (readLabels buf).2.2) := by
  induction buf using readLabels.induct with
  | case1 => intro fuel _ acc; cases fuel <;> simp [readDomainNameAux, readLabels]
  | case2 rest =>
    intro fuel hf acc
    cases fuel with
    | zero => simp at hf
    | succ f => simp [readDomainNameAux, readLabels]
  | case3 b rest hb ls e rem hrec ih =>
    intro fuel hf acc
    cases fuel with
    | zero => simp at hf
    | succ f =>
      have hdrop : (rest.drop b).length ≤ f := by
        rw [List.length_drop]
        simp at hf
        omega
      rw [readDomainNameAux, readLabels]
      simp only [if_neg hb, hrec, ih f hdrop]
      rw [List.foldl_cons]

/-- `splitOnDot` never returns the empty list of pieces. -/
theorem splitOnDot_ne_nil (s : List Nat) : splitOnDot s ≠ [] := by
  cases s with
  | nil => simp [splitOnDot]
  | cons c rest =>
    simp only [splitOnDot]
    by_cases h : c = 46
    · simp [h]
    · simp only [if_neg h]
      cases hr : splitOnDot rest <;> simp

/-- Prepending a byte to the first piece commutes with `join46`. -/
theorem join46_cons_head (c : Nat) (h : List Nat) (t : List (List Nat)) :
    join46 ((c :: h) :: t) = c :: join46 (h :: t) := by
  cases t <;> rfl

/-- Splitting on dots and joining with dots restores the original string. -/
theorem join46_splitOnDot (s : List Nat) : join46 (splitOnDot s) = s := by
  induction s with
  | nil => rfl
  | cons c rest ih =>
    by_cases h : c = 46
    · subst h
      simp only [splitOnDot, if_pos rfl]
      cases hr : splitOnDot rest with
      | nil => exact absurd hr (splitOnDot_ne_nil rest)
      | cons hd tl =>
        rw [hr] at ih
        simp [join46, ih]
    · simp only [splitOnDot, if_neg h]
      cases hr : splitOnDot rest with
      | nil => exact absurd hr (splitOnDot_ne_nil rest)
      | cons hd tl =>
        rw [hr] at ih
        rw [join46_cons_head, ih]

/-- Once the accumulator is nonempty, folding `goAppend` is dot-joining the
accumulator in front of the remaining labels. -/
theorem foldl_goAppend_ne_nil (ls : List (List Nat)) : ∀ acc, acc ≠ [] →
    ls.foldl goAppend acc = join46 (acc :: ls) := by
  induction ls with
  | nil => intro acc _; rfl
  | cons l ls ih =>
    intro acc hacc
    have hstep : goAppend acc l = acc ++ 46 :: l := by
      simp [goAppend, List.isEmpty_iff, hacc]
    rw [List.foldl_cons, hstep, ih (acc ++ 46 :: l) (by simp)]
    cases ls with
    | nil => rfl
    | cons l' ls' => simp [join46]

/-- Reading back a block of length-prefixed labels (each nonempty and at
most 255 bytes) recovers exactly those labels, no error, and the bytes
after the terminator. -/
theorem readLabels_encLabels (ls : List (List Nat)) (rem : List Nat)
    (hl : ∀ l ∈ ls, l ≠ [] ∧ l.length ≤ 255) :
    readLabels (encLabels ls ++ 0 :: rem) = (ls, false, rem) := by
  induction ls with
  | nil => simp [encLabels, readLabels]
  | cons l ls ih =>
    have hne : l ≠ [] := (hl l (by simp)).1
    have hle : l.length ≤ 255 := (hl l (by simp)).2
    have hmod : l.length % 256 = l.length := Nat.mod_eq_of_lt (by omega)
    have hlen0 : l.length ≠ 0 := by
      intro h
      exact hne (List.eq_nil_of_length_eq_zero h)
    have harr : encLabels (l :: ls) ++ 0 :: rem =
        (l.length % 256) :: (l ++ (encLabels ls ++ 0 :: rem)) := by
      simp [encLabels]
    rw [harr, readLabels]
    rw [hmod]
    simp only [if_neg hlen0]
    rw [List.take_left, List.drop_left, ih (fun l hm => hl l (by simp [hm]))]

/-- Round-trip of the name codec on a single name followed by arbitrary
trailing bytes: when every dot-separated label of `dn` is nonempty and at
most 255 bytes, decoding what `writeDomainName` wrote yields `dn` back,
no error, and the trailing bytes untouched. -/
theorem readDomainName_writeDomainName (dn rest : List Nat)
    (h : ∀ l ∈ splitOnDot dn, l ≠ [] ∧ l.length ≤ 255) :
    readDomainName (writeDomainName dn ++ rest) = (dn, false, rest) := by
  have hw : writeDomainName dn ++ rest = encLabels (splitOnDot dn) ++ 0 :: rest := by
    simp [writeDomainName, encLabels]
  rw [readDomainName, hw, readDomainNameAux_readLabels _ _ le_rfl,
    readLabels_encLabels (splitOnDot dn) rest h]
  cases hs : splitOnDot dn with
  | nil => exact absurd hs (splitOnDot_ne_nil dn)
  | cons l ls =>
    have hne : l ≠ [] := (h l (by simp [hs])).1
    have : goAppend [] l = l := by simp [goAppend]
    rw [List.foldl_cons, this, foldl_goAppend_ne_nil ls l hne, ← hs, join46_splitOnDot]

/-- 16-bit big-endian encode/decode round-trip. -/
theorem u16_encodeU16 (v : Nat) (h : v < 65536) : u16 (v / 256 % 256) (v % 256) = v := by
  simp only [u16]
  omega

/-- On a table whose entries all carry at least 16 address bytes, the
lookup loop completes and returns exactly one answer per matching entry, in
table order: the filter of the table by substring containment, mapped to
answer records built from the entry's name and address bytes 12–16. -/
theorem lookupAnswers_eq (qn : List Nat) (table : List Name)
    (h : ∀ e ∈ table, 16 ≤ e.address.length) :
    lookupAnswers qn table =
      some ((table.filter (fun e => containsSub qn e.name)).map
        (fun e => mkAnswer e ((e.address.drop 12).take 4))) := by
  induction table with
  | nil => rfl
  | cons e rest ih =>
    have h16 : 16 ≤ e.address.length := h e (by simp)
    have hs : sliceAddr e.address = some ((e.address.drop 12).take 4) := by
      simp [sliceAddr, h16]
    have ih' := ih (fun x hx => h x (by simp [hx]))
    cases hc : containsSub qn e.name with
    | true => simp [lookupAnswers, hc, hs, ih', List.filter_cons]
    | false => simp [lookupAnswers, hc, ih', List.filter_cons]

/-- Lookup over a table of `n` identical matching entries yields `n`
identical answer records. -/
theorem lookupAnswers_replicate (qn : List Nat) (e : Name) (rd : List Nat)
    (hc : containsSub qn e.name = true) (hs : sliceAddr e.address = some rd) :
    ∀ n, lookupAnswers qn (List.replicate n e) = some (List.replicate n (mkAnswer e rd)) := by
  intro n
  induction n with
  | zero => rfl
  | succ k ih => simp [List.replicate_succ, lookupAnswers, hc, hs, ih]

/-- `dbLookup` only ever populates the answer section; authority and
additional results are empty in every branch. -/
theorem dbLookup_sections (names? : Option (List Name)) (q : DNSResourceRecord)
    (a u d : List DNSResourceRecord) :
    dbLookup names? q = some (a, u, d) → u = [] ∧ d = [] := by
  intro h
  cases names? with
  | none =>
    simp [dbLookup] at h
    exact ⟨h.2.1, h.2.2⟩
  | some names =>
    by_cases ht : q.type ≠ TypeA ∨ q.rrClass ≠ ClassINET
    · simp [dbLookup, if_pos ht] at h
      exact ⟨h.2.1, h.2.2⟩
    · simp only [dbLookup, if_neg ht] at h
      cases hl : lookupAnswers q.domainName names with
      | none => rw [hl] at h; simp at h
      | some ans => rw [hl] at h; simp at h; exact ⟨h.2.1, h.2.2⟩

/-- The per-question resolution loop also never populates the authority or
additional sections. -/
theorem resolveAll_sections (names? : Option (List Name)) :
    ∀ (qs : List DNSResourceRecord) (a u d : List DNSResourceRecord),
      resolveAll names? qs = some (a, u, d) → u = [] ∧ d = [] := by
  intro qs
  induction qs with
  | nil =>
    intro a u d h
    simp [resolveAll] at h
    exact ⟨h.2.1, h.2.2⟩
  | cons q qs ih =>
    intro a u d h
    simp only [resolveAll] at h
    cases h1 : dbLookup names? q with
    | none => rw [h1] at h; simp at h
    | some t1 =>
      obtain ⟨a1, u1, d1⟩ := t1
      rw [h1] at h
      cases h2 : resolveAll names? qs with
      | none => simp [h2] at h
      | some t2 =>
        obtain ⟨a2, u2, d2⟩ := t2
        simp [h2] at h
        obtain ⟨hu1, hd1⟩ := dbLookup_sections names? q a1 u1 d1 h1
        obtain ⟨hu2, hd2⟩ := ih a2 u2 d2 h2
        refine ⟨?_, ?_⟩
        · rw [← h.2.1, hu1, hu2]; rfl
        · rw [← h.2.2, hd1, hd2]; rfl

/-- The question-decoding loop returns exactly as many question records as
the count it was asked for. -/
theorem readQuestions_length : ∀ (n : Nat) (buf : List Nat) qs e rest,
    readQuestions n buf = some (qs, e, rest) → qs.length = n := by
  intro n
  induction n with
  | zero =>
    intro buf qs e rest h
    simp [readQuestions] at h
    simp [← h.1]
  | succ k ih =>
    intro buf qs e rest h
    simp only [readQuestions] at h
    cases h1 : next2u16 (readDomainName buf).2.2 with
    | none => rw [h1] at h; simp at h
    | some p1 =>
      obtain ⟨t, buf2⟩ := p1
      rw [h1] at h
      cases h2 : next2u16 buf2 with
      | none => simp [h2] at h
      | some p2 =>
        obtain ⟨c, buf3⟩ := p2
        simp only [h2] at h
        cases h3 : readQuestions k buf3 with
        | none => simp [h3] at h
        | some t3 =>
          obtain ⟨qs', e', rest'⟩ := t3
          simp [h3] at h
          rw [← h.1]
          simp [ih buf3 qs' e' rest' h3]

/-- For a type-A class-INET question over a successfully read table,
`dbLookup` is the answer loop's result with empty authority and additional
sections (propagating its panic). -/
theorem dbLookup_eq_map (names : List Name) (q : DNSResourceRecord)
    (ht : q.type = TypeA) (hc : q.rrClass = ClassINET) :
    dbLookup (some names) q =
      (lookupAnswers q.domainName names).map (fun ans => (ans, [], [])) := by
  have hcond : ¬(q.type ≠ TypeA ∨ q.rrClass ≠ ClassINET) := by simp [ht, hc]
  simp only [dbLookup, if_neg hcond]
  cases lookupAnswers q.domainName names <;> rfl

/-- Composition of the handler's decode-and-resolve phases: given the
results of the header decode, the question loop and the resolution loop,
`buildResponse` assembles the response record of dnsserver.go lines
143–150. -/
theorem buildResponse_eq (names? : Option (List Name)) (buf : List Nat)
    (h : DNSHeader) (e0 : Bool) (rest0 : List Nat)
    (qs : List DNSResourceRecord) (e : Bool) (rest : List Nat)
    (ans auth add : List DNSResourceRecord)
    (hdec : decodeHeader buf = (h, e0, rest0))
    (hq : readQuestions h.numQuestions rest0 = some (qs, e, rest))
    (hres : resolveAll names? qs = some (ans, auth, add)) :
    buildResponse names? buf =
      some { header := { transactionID := h.transactionID, flags := FlagResponse,
                         numQuestions := h.numQuestions, numAnswers := ans.length % 65536,
                         numAuthorities := auth.length % 65536,
                         numAdditionals := add.length % 65536 },
             questions := qs, answers := ans, authorities := auth, additionals := add } := by
  simp only [buildResponse, hdec, hq, hres]

/-- Whenever the handler builds a response at all — for any request,
well-formed or not — the response header's transaction ID is the one
decoded from the request header, copied verbatim (dnsserver.go line 144). -/
theorem buildResponse_transactionID (names? : Option (List Name)) (buf : List Nat)
    (resp : DNSResponse) (hb : buildResponse names? buf = some resp) :
    resp.header.transactionID = (decodeHeader buf).1.transactionID := by
  simp only [buildResponse] at hb
  cases hq : readQuestions (decodeHeader buf).1.numQuestions (decodeHeader buf).2.2 with
  | none => rw [hq] at hb; simp at hb
  | some t1 =>
    obtain ⟨qs, e, rest⟩ := t1
    rw [hq] at hb
    dsimp only at hb
    cases hr : resolveAll names? qs with
    | none => rw [hr] at hb; simp at hb
    | some t2 =>
      obtain ⟨ans, auth, add⟩ := t2
      rw [hr] at hb
      dsimp only at hb
      simp only [Option.some.injEq] at hb
      subst hb
      rfl

/-- Resolving a single-question list is exactly its `dbLookup`. -/
theorem resolveAll_singleton (names? : Option (List Name)) (q : DNSResourceRecord) :
    resolveAll names? [q] = dbLookup names? q := by
  simp only [resolveAll]
  cases h : dbLookup names? q with
  | none => rfl
  | some t =>
    obtain ⟨a, u, d⟩ := t
    simp

/-- Two-byte big-endian decode of an encoded 16-bit value against a
remainder: `next2u16` consumes exactly the two bytes `encodeU16` wrote. -/
theorem next2u16_encodeU16 (v : Nat) (hv : v < 65536) (rest : List Nat) :
    next2u16 (encodeU16 v ++ rest) = some (v, rest) := by
  simp only [encodeU16, List.cons_append, List.nil_append, next2u16]
  rw [u16_encodeU16 v hv]

/-- Parsing back a canonically encoded question section — each name with
nonempty dot-separated labels of at most 255 bytes, each type and class
below 2^16 — recovers exactly the encoded questions with no name error,
leaving any trailing bytes unread. -/
theorem readQuestions_canonical (qts : List (List Nat × Nat × Nat)) (rem : List Nat)
    (h : ∀ q ∈ qts,
      (∀ l ∈ splitOnDot q.1, l ≠ [] ∧ l.length ≤ 255) ∧ q.2.1 < 65536 ∧ q.2.2 < 65536) :
    readQuestions qts.length
        (encodeQuestions (qts.map (fun q => mkQuestion q.1 q.2.1 q.2.2)) ++ rem) =
      some (qts.map (fun q => mkQuestion q.1 q.2.1 q.2.2), false, rem) := by
  induction qts with
  | nil => simp [encodeQuestions, readQuestions]
  | cons q qts ih =>
    obtain ⟨dn, t, c⟩ := q
    obtain ⟨hl, ht, hc⟩ := h (dn, t, c) (by simp)
    have harr : encodeQuestions (((dn, t, c) :: qts).map (fun q => mkQuestion q.1 q.2.1 q.2.2))
        ++ rem =
        writeDomainName dn ++ (encodeU16 t ++ (encodeU16 c ++
          (encodeQuestions (qts.map (fun q => mkQuestion q.1 q.2.1 q.2.2)) ++ rem))) := by
      simp [encodeQuestions, encodeQuestion, mkQuestion]
    have hname := readDomainName_writeDomainName dn
      (encodeU16 t ++ (encodeU16 c ++
        (encodeQuestions (qts.map (fun q => mkQuestion q.1 q.2.1 q.2.2)) ++ rem))) hl
    rw [List.length_cons, readQuestions, harr, hname]
    dsimp only
    rw [next2u16_encodeU16 t ht]
    dsimp only
    rw [next2u16_encodeU16 c hc]
    dsimp only
    rw [ih (fun x hx => h x (by simp [hx]))]
    simp [mkQuestion]

/-! ### Claims -/

/-- C1 (code bug): the claim says the handler never crashes on malformed
input, but a header that declares one question over an empty body drives
`binary.BigEndian.Uint16(requestBuffer.Next(2))` into an out-of-range index:
the model evaluates to `none` (panic) at this 12-byte datagram, so no
response is sent and the unrecovered panic kills the process. -/
theorem c1_truncated_question_panics :
    handleDNSClient none [0, 0, 0, 0, 0, 1, 0, 0, 0, 0, 0, 0] = none := by decide

/-- C2 counterexample: the name `".a"` (bytes `[46, 97]`), whose labels
`""` and `"a"` are each at most 255 bytes, does not survive the encode–
decode round-trip: the zero length byte written for the empty label
terminates decoding immediately. -/
theorem c2_empty_label_roundtrip_fails :
    (readDomainName (writeDomainName [46, 97])).1 ≠ [46, 97] := by decide

/-- C2 (amended): encode-then-decode restores the original name, with no
error, for the empty name and for every dotted name whose labels are each
nonempty and at most 255 bytes; names with an empty label are the
counterexample and are excluded. -/
theorem c2_roundtrip_nonempty_labels (dn : List Nat)
    (h : dn = [] ∨ ∀ l ∈ splitOnDot dn, l ≠ [] ∧ l.length ≤ 255) :
    (readDomainName (writeDomainName dn)).1 = dn ∧
    (readDomainName (writeDomainName dn)).2.1 = false := by
  rcases h with h | h
  · subst h
    exact ⟨by decide, by decide⟩
  · have hr := readDomainName_writeDomainName dn [] h
    rw [List.append_nil] at hr
    rw [hr]
    exact ⟨rfl, rfl⟩

/-- Witness for C2's amended round-trip at the name `"a.b"`. -/
theorem c2_roundtrip_nonempty_labels_witness :
    (([97, 46, 98] : List Nat) = [] ∨
      ∀ l ∈ splitOnDot [97, 46, 98], l ≠ [] ∧ l.length ≤ 255) ∧
    (readDomainName (writeDomainName [97, 46, 98])).1 = [97, 46, 98] :=
  ⟨Or.inr (by decide), (c2_roundtrip_nonempty_labels [97, 46, 98] (Or.inr (by decide))).1⟩

/-- C3 counterexample: encoding the empty domain name does not write the
single zero byte the claim describes. -/
theorem c3_empty_name_not_single_zero : writeDomainName [] ≠ [0] := by decide

/-- C3 (amended): encoding the empty domain name writes exactly two zero
bytes — `strings.Split("", ".")` yields one empty label, so a zero length
prefix is written for it, followed by the terminating zero byte. -/
theorem c3_empty_name_two_zero_bytes : writeDomainName [] = [0, 0] := by decide

/-- C4: for a type-A class-INET question and a table whose entries store
full 16-byte addresses, `dbLookup` returns one answer per entry whose name
is a literal substring of the queried name — all matches, in table order —
each carrying the table entry's name, type A, class INET, TTL 31337, and
as resource data address bytes 12–16, which for a 16-byte address are
exactly its last 4 bytes (second conjunct). -/
theorem c4_lookup_returns_all_matches (table : List Name) (q : DNSResourceRecord)
    (ht : q.type = TypeA) (hc : q.rrClass = ClassINET)
    (h16 : ∀ e ∈ table, e.address.length = 16) :
    dbLookup (some table) q =
      some ((table.filter (fun e => containsSub q.domainName e.name)).map
        (fun e => mkAnswer e ((e.address.drop 12).take 4)), [], []) ∧
    ∀ e ∈ table, (e.address.drop 12).take 4 = e.address.drop (e.address.length - 4) := by
  constructor
  · have hcond : ¬(q.type ≠ TypeA ∨ q.rrClass ≠ ClassINET) := by
      simp [ht, hc]
    simp only [dbLookup, if_neg hcond]
    rw [lookupAnswers_eq q.domainName table (fun e he => by rw [h16 e he])]
  · intro e he
    have h1 : e.address.length = 16 := h16 e he
    have hlen : (e.address.drop 12).length = 4 := by
      rw [List.length_drop, h1]
    have h2 : e.address.length - 4 = 12 := by rw [h1]
    rw [h2, ← hlen, List.take_length]

/-- Witness for C4 at a one-entry table whose name `"a"` is a substring of
the queried `"bac"`. -/
theorem c4_lookup_returns_all_matches_witness :
    dbLookup (some [wEntry]) (mkQuestion [98, 97, 99] TypeA ClassINET) =
      some ([mkAnswer wEntry [12, 13, 14, 15]], [], []) := by
  have h := (c4_lookup_returns_all_matches [wEntry] (mkQuestion [98, 97, 99] TypeA ClassINET)
    rfl rfl (by decide)).1
  rw [h]
  decide

/-- C7: a question whose type is not A or whose class is not INET resolves
to empty answer, authority and additional sets, for any table snapshot and
also when the table read failed; `dbLookup` has no error result at all and
does not panic on this path (`some`). -/
theorem c7_non_a_inet_resolves_empty (names? : Option (List Name)) (q : DNSResourceRecord)
    (h : q.type ≠ TypeA ∨ q.rrClass ≠ ClassINET) :
    dbLookup names? q = some ([], [], []) := by
  cases names? with
  | none => rfl
  | some names => simp [dbLookup, if_pos h]

/-- Witness for C7 at an AAAA (type 28) question over a nonempty table
whose entry would otherwise match. -/
theorem c7_non_a_inet_resolves_empty_witness :
    ((mkQuestion [97] 28 1).type ≠ TypeA ∨ (mkQuestion [97] 28 1).rrClass ≠ ClassINET) ∧
    dbLookup (some [wEntry]) (mkQuestion [97] 28 1) = some ([], [], []) :=
  ⟨Or.inl (by decide), c7_non_a_inet_resolves_empty (some [wEntry]) (mkQuestion [97] 28 1)
    (Or.inl (by decide))⟩

/-- C8: when the name-table read fails (`GetNames` returns an error),
`dbLookup` returns empty answer, authority and additional sets for every
question, and signals nothing to the caller — the handler cannot observe
the failure. -/
theorem c8_table_error_resolves_empty (q : DNSResourceRecord) :
    dbLookup none q = some ([], [], []) := rfl

/-- C9: the resolver requires 16 address bytes from every matching entry:
a snapshot whose matching entry (name `"ab"`, contained in the queried
`"abc"`) stores the empty address of an invalid IP makes the slice
`address[12:16]` out of range, and the lookup returns no result (panic). -/
theorem c9_short_address_panics :
    containsSub [97, 98, 99] [97, 98] = true ∧
    ([] : List Nat).length < 16 ∧
    dbLookup (some [{ name := [97, 98], address := [] }])
      (mkQuestion [97, 98, 99] TypeA ClassINET) = none := by
  exact ⟨by decide, by decide, by decide⟩

/-- C10: the domain-name decoder terminates on every finite buffer: the
loop runs once per entry of `readLabels` and each iteration consumes at
least one byte, so the iteration count plus the bytes left over never
exceeds the buffer length; the second conjunct identifies `readDomainName`
with the `goAppend`-fold of that bounded label sequence. -/
theorem c10_decoder_iterations_bounded (buf : List Nat) :
    (readLabels buf).1.length + (readLabels buf).2.2.length ≤ buf.length ∧
    readDomainName buf =
      ((readLabels buf).1.foldl goAppend [], (readLabels buf).2.1, (readLabels buf).2.2) := by
  constructor
  · induction buf using readLabels.induct with
    | case1 => simp [readLabels]
    | case2 rest => simp [readLabels]
    | case3 b rest hb ls e rem hrec ih =>
      rw [readLabels]
      simp only [if_neg hb, hrec]
      rw [hrec] at ih
      have hd : (rest.drop b).length = rest.length - b := List.length_drop b rest
      simp only [List.length_cons] at ih ⊢
      simp at ih
      omega
  · exact readDomainNameAux_readLabels buf buf.length le_rfl []

/-- C5 counterexample: with a table of 65536 entries that all match the
query, the built response serializes 65536 answer records but the 16-bit
answer-count field on the wire holds `uint16(65536) = 0`, so the count does
not equal the number of entries serialized in the answer section. -/
theorem c5_answer_count_overflows :
    buildResponse (some overflowTable) oneQuestionBuf = some overflowResp ∧
    overflowResp.header.numAnswers = 0 ∧
    overflowResp.answers.length = 65536 := by
  have hransw : overflowResp.answers = List.replicate 65536 overflowAnswer := rfl
  refine ⟨?_, rfl, by rw [hransw, List.length_replicate]⟩
  have hdec0 : decodeHeader oneQuestionBuf =
      ({ transactionID := 0, flags := 0, numQuestions := 1, numAnswers := 0,
         numAuthorities := 0, numAdditionals := 0 }, false, [0, 0, 1, 0, 1]) := by decide
  have hq : readQuestions 1 [0, 0, 1, 0, 1] = some ([mkQuestion [] 1 1], false, []) := by
    decide
  have hla : lookupAnswers (mkQuestion [] 1 1).domainName overflowTable =
      some (List.replicate 65536 overflowAnswer) :=
    lookupAnswers_replicate _ overflowEntry [0, 0, 0, 0] (by decide) (by decide) 65536
  have hdb : dbLookup (some overflowTable) (mkQuestion [] 1 1) =
      some (List.replicate 65536 overflowAnswer, [], []) := by
    rw [dbLookup_eq_map overflowTable (mkQuestion [] 1 1) rfl rfl, hla, Option.map_some']
  have hres : resolveAll (some overflowTable) [mkQuestion [] 1 1] =
      some (List.replicate 65536 overflowAnswer, [], []) := by
    rw [resolveAll_singleton, hdb]
  have hb := buildResponse_eq (some overflowTable) oneQuestionBuf _ _ _ _ _ _ _ _ _
    hdec0 hq hres
  refine hb.trans ?_
  have hnum : (List.replicate 65536 overflowAnswer).length % 65536 = 0 := by
    rw [List.length_replicate]
  rw [hnum]
  rfl

/-- C5 (amended): every count field of a built response header equals the
number of records in the section the encoding loops then serialize —
unconditionally for the question, authority and additional sections, and
for the answer section whenever it holds fewer than 65536 records; beyond
that boundary `uint16(len(...))` wraps, which is the counterexample. -/
theorem c5_counts_match_sections (names? : Option (List Name)) (buf : List Nat)
    (resp : DNSResponse) (hb : buildResponse names? buf = some resp)
    (hn : resp.answers.length < 65536) :
    resp.header.numQuestions = resp.questions.length ∧
    resp.header.numAnswers = resp.answers.length ∧
    resp.header.numAuthorities = resp.authorities.length ∧
    resp.header.numAdditionals = resp.additionals.length := by
  simp only [buildResponse] at hb
  cases hq : readQuestions (decodeHeader buf).1.numQuestions (decodeHeader buf).2.2 with
  | none => rw [hq] at hb; simp at hb
  | some t1 =>
    obtain ⟨qs, e, rest⟩ := t1
    rw [hq] at hb
    dsimp only at hb
    cases hr : resolveAll names? qs with
    | none => rw [hr] at hb; simp at hb
    | some t2 =>
      obtain ⟨ans, auth, add⟩ := t2
      rw [hr] at hb
      dsimp only at hb
      simp only [Option.some.injEq] at hb
      obtain ⟨hu, hd⟩ := resolveAll_sections names? qs ans auth add hr
      have hlen : qs.length = (decodeHeader buf).1.numQuestions :=
        readQuestions_length _ _ _ _ _ hq
      subst hb
      subst hu
      subst hd
      refine ⟨hlen.symm, ?_, by simp, by simp⟩
      exact Nat.mod_eq_of_lt (by simpa using hn)

/-- Witness for C5's amended count invariant at a one-question request over
a failed table read. -/
theorem c5_counts_match_sections_witness :
    buildResponse none oneQuestionBuf = some oneQuestionResp ∧
    oneQuestionResp.answers.length < 65536 ∧
    oneQuestionResp.header.numAnswers = oneQuestionResp.answers.length :=
  ⟨by decide, by decide,
    (c5_counts_match_sections none oneQuestionBuf oneQuestionResp (by decide) (by decide)).2.1⟩

/-- C6 counterexample: the request whose single question carries the wire
name `01 2e 00` (one label holding a dot byte) decodes without any header
or name error — it is well-formed in the claim's sense — yet the response's
serialized question section differs byte-for-byte from the request's
question section: the decoded name `"."` re-splits into two empty labels
and re-encodes as `00 00 00`. -/
theorem c6_question_section_not_echoed :
    (decodeHeader (c6HeaderBytes ++ c6QuestionBytes)).2.1 = false ∧
    (readQuestions (decodeHeader (c6HeaderBytes ++ c6QuestionBytes)).1.numQuestions
      (decodeHeader (c6HeaderBytes ++ c6QuestionBytes)).2.2).map (fun x => x.2.1) =
        some false ∧
    (buildResponse none (c6HeaderBytes ++ c6QuestionBytes)).map
      (fun r => encodeQuestions r.questions) ≠ some c6QuestionBytes := by
  exact ⟨by decide, by decide, by decide⟩

/-- C6 (amended): two parts. First, unconditionally: for every request for
which the handler builds a response — well-formed or not — the response's
transaction ID equals the transaction ID decoded from the request's header,
copied verbatim. Second, the question section: for every request made of a
header and a canonically encoded question section (names whose wire labels
are nonempty and at most 255 bytes — which excludes the counterexample's
dot-holding label and the empty name — with in-range type, class,
transaction ID, and a question count matching the questions present),
followed by arbitrary trailing bytes, the response's serialized question
section is byte-for-byte the request's question section. -/
theorem c6_txid_and_question_section_echoed :
    (∀ (names? : Option (List Name)) (buf : List Nat) (resp : DNSResponse),
      buildResponse names? buf = some resp →
      resp.header.transactionID = (decodeHeader buf).1.transactionID) ∧
    (∀ (names? : Option (List Name)) (h : DNSHeader)
      (qts : List (List Nat × Nat × Nat)) (extra : List Nat) (resp : DNSResponse),
      h.transactionID < 65536 → h.numQuestions = qts.length → qts.length < 65536 →
      (∀ q ∈ qts,
        (∀ l ∈ splitOnDot q.1, l ≠ [] ∧ l.length ≤ 255) ∧ q.2.1 < 65536 ∧ q.2.2 < 65536) →
      buildResponse names?
          (encodeHeader h ++
            (encodeQuestions (qts.map (fun q => mkQuestion q.1 q.2.1 q.2.2)) ++ extra)) =
        some resp →
      resp.header.transactionID = h.transactionID ∧
      encodeQuestions resp.questions =
        encodeQuestions (qts.map (fun q => mkQuestion q.1 q.2.1 q.2.2))) := by
  constructor
  · exact buildResponse_transactionID
  · intro names? h qts extra resp htid hcnt hlt hq hb
    have hu16 : ∀ v : Nat, u16 (v / 256 % 256) (v % 256) = v % 65536 := by
      intro v
      simp only [u16]
      omega
    have hdec : decodeHeader (encodeHeader h ++
        (encodeQuestions (qts.map (fun q => mkQuestion q.1 q.2.1 q.2.2)) ++ extra)) =
        ({ transactionID := h.transactionID, flags := h.flags % 65536,
           numQuestions := qts.length, numAnswers := h.numAnswers % 65536,
           numAuthorities := h.numAuthorities % 65536,
           numAdditionals := h.numAdditionals % 65536 }, false,
          encodeQuestions (qts.map (fun q => mkQuestion q.1 q.2.1 q.2.2)) ++ extra) := by
      simp only [encodeHeader, encodeU16, List.cons_append, List.nil_append, List.append_assoc,
        decodeHeader, hu16]
      rw [Nat.mod_eq_of_lt htid, hcnt, Nat.mod_eq_of_lt hlt]
    simp only [buildResponse, hdec] at hb
    rw [readQuestions_canonical qts extra hq] at hb
    dsimp only at hb
    cases hr : resolveAll names? (qts.map (fun q => mkQuestion q.1 q.2.1 q.2.2)) with
    | none => rw [hr] at hb; simp at hb
    | some t =>
      obtain ⟨ans, auth, add⟩ := t
      rw [hr] at hb
      dsimp only at hb
      simp only [Option.some.injEq] at hb
      subst hb
      exact ⟨rfl, rfl⟩

/-- Witness for C6's amended echo property: the unconditional
transaction-ID conjunct and the canonical question-echo conjunct, both
applied at a one-question request for the name `"a"` with transaction ID 7
and a failed table read. -/
theorem c6_txid_and_question_section_echoed_witness :
    buildResponse none (encodeHeader ⟨7, 0, 1, 0, 0, 0⟩ ++
        (encodeQuestions [mkQuestion [97] 1 1] ++ [])) = some c6WitnessResp ∧
    c6WitnessResp.header.transactionID =
      (decodeHeader (encodeHeader ⟨7, 0, 1, 0, 0, 0⟩ ++
        (encodeQuestions [mkQuestion [97] 1 1] ++ []))).1.transactionID ∧
    c6WitnessResp.header.transactionID = 7 ∧
    encodeQuestions c6WitnessResp.questions = encodeQuestions [mkQuestion [97] 1 1] := by
  have happ := c6_txid_and_question_section_echoed
  have hcanon := happ.2 none ⟨7, 0, 1, 0, 0, 0⟩
    [([97], 1, 1)] [] c6WitnessResp (by decide) (by decide) (by decide) (by decide) (by decide)
  exact ⟨by decide, happ.1 none _ c6WitnessResp (by decide), hcanon.1, hcanon.2⟩

end LightDNS
